import Mathlib

/-!
Verification development for the training script
src/tools/classcification/train.py of SimpleTransferLearning-Pytorch.

The script is embedded shallowly: the configuration checks, the resume
branch, the checkpoint-name construction and the epoch/batch loop are
translated into executable Lean definitions; the tensor computations of
the framework (model forward, autodiff, optimizer) are abstracted into
per-batch data (output scores, labels, scalar loss value), and the loop
is modelled as a function producing the final metric state together with
a trace of the framework calls it performs, in program order.
-/

/-- Command-line arguments of parse_args (train.py lines 26-108); only the
fields the verified properties touch are modelled.  dataset_root and resume
are Option to model Python None. -/
structure Args where
  dataset : String
  dataset_root : Option String
  basenet : String
  depth : Int
  save_folder : String
  resume : Option String
  accumulation_steps : Int
  epochs : Nat
deriving DecidableEq

/-- Python values relevant to the test on train.py line 124,
`os.path.exists(args.save_folder) is None`: a bool or None. -/
inductive PyVal where
  | bool (b : Bool)
  | pyNone
deriving DecidableEq

/-- Python `x is None` on a PyVal. -/
def pyIsNone : PyVal → Bool
  | PyVal.pyNone => true
  | _ => false

/-- train.py line 124: os.path.exists returns a Python bool (True or False),
never None; its result is whether the path exists on disk. -/
def osPathExistsResult (existsOnDisk : Bool) : PyVal :=
  PyVal.bool existsOnDisk

/-- train.py lines 124-125: `if os.path.exists(args.save_folder) is None:
os.mkdir(args.save_folder)` — the mkdir branch runs iff the exists result
`is None`. -/
def mkdirBranchTaken (existsOnDisk : Bool) : Bool :=
  pyIsNone (osPathExistsResult existsOnDisk)

/-- train.py lines 140-160: dataset selection inside train().  For dataset
'CIFAR10' (resp. 'pets') a ValueError is raised when dataset_root differs
from the required path constant CIFAR_path (resp. PETS_path); the
`elif args.dataset_root is None` test can only be reached when the first
test was false.  argparse restricts --dataset to these two choices. -/
def datasetCheck (cifarPath petsPath : String) (a : Args) : Except String Unit :=
  if a.dataset = "CIFAR10" then
    if a.dataset_root ≠ some cifarPath then
      Except.error "Must specify dataset_root if specifying dataset CIFAR10."
    else if a.dataset_root = none then
      Except.error "Must provide --dataset_root when training on CIFAR10."
    else Except.ok ()
  else if a.dataset = "pets" then
    if a.dataset_root ≠ some petsPath then
      Except.error "Must specify dataset_root if specifying dataset PETS."
    else if a.dataset_root = none then
      Except.error "Must provide --dataset_root when training on PETS."
    else Except.ok ()
  else Except.ok ()

/-- train.py lines 171-177: model selection — only basenet 'vgg' with
depth 16 is supported, anything else raises a ValueError. -/
def modelCheck (a : Args) : Except String Unit :=
  if a.basenet = "vgg" then
    if a.depth = 16 then Except.ok ()
    else Except.error "Unsupported model depth!"
  else Except.error "Unsupported model type!"

/-- Python truthiness of a str: nonempty strings are truthy. -/
def pyStrTruthy (s : String) : Bool :=
  s ≠ ""

/-- Extension part of Python os.path.splitext (posix): the suffix starting
at the last dot of the final path component, provided some character of
that component strictly before the dot is not itself a dot (leading dots
carry no extension). -/
def splitextExt (s : String) : String :=
  let rev := s.data.reverse
  let extRev := rev.takeWhile (fun c => c ≠ '.')
  let restRev := rev.dropWhile (fun c => c ≠ '.')
  match restRev with
  | [] => ""
  | _ :: stemRev =>
    if extRev.contains '/' then ""
    else if (stemRev.takeWhile (fun c => c ≠ '/')).any (fun c => c ≠ '.') then
      String.mk ('.' :: extRev.reverse)
    else ""

/-- Python os.path.join for the two-argument uses in train.py: the second
component replaces the first when absolute, otherwise they are joined
with a separator. -/
def pathJoin (a b : String) : String :=
  if b.data.head? = some '/' then b else a ++ "/" ++ b

/-- What the weight-loading step (train.py lines 186-198) does. -/
inductive ResumeAction where
  | loadWeights (path : String)
  | rejectExt
  | initWeights
  | skip
deriving DecidableEq

/-- train.py lines 186-198, translated literally.  `if args.resume:` is
false for None and for the empty string.  The test on line 189 is
`if ext == '.pkl' or '.pth':`, whose Python value is
`(ext == '.pkl') or '.pth'`; since the nonempty string '.pth' is truthy,
the whole condition is truthy for every ext.  On the truthy branch the
checkpoint at os.path.join(save_folder, resume) is loaded; the else branch
prints the rejection message; `elif args.resume is None` initializes
weights. -/
def resumeAction (a : Args) : ResumeAction :=
  match a.resume with
  | Option.none => ResumeAction.initWeights
  | Option.some r =>
    if pyStrTruthy r then
      let ext := splitextExt r
      if (ext == ".pkl") || pyStrTruthy ".pth" then
        ResumeAction.loadWeights (pathJoin a.save_folder r)
      else ResumeAction.rejectExt
    else ResumeAction.skip

/-- Decimal digit characters of n, little-endian, with fuel (n itself is
enough fuel for n ≥ 1). -/
def decChars : Nat → Nat → List Char
  | 0, _ => []
  | fuel + 1, n =>
    if n = 0 then [] else Nat.digitChar (n % 10) :: decChars fuel (n / 10)

/-- Decimal representation of a natural number, as Python str/repr render
a nonnegative int. -/
def natDecStr (n : Nat) : String :=
  if n = 0 then "0" else String.mk (decChars n n).reverse

/-- Decimal representation of an int, as Python str renders it. -/
def intDecStr (i : Int) : String :=
  if i < 0 then "-" ++ natDecStr i.natAbs else natDecStr i.natAbs

/-- train.py lines 268-270: filename of the interval checkpoint saved when
epoch is a nonzero multiple of 5:
save_folder + '/' + dataset + '_' + basenet + str(depth) + '_' +
repr(epoch) + '.pth'. -/
def intervalCkptName (a : Args) (epoch : Nat) : String :=
  a.save_folder ++ "/" ++ a.dataset ++ "_" ++ a.basenet ++ intDecStr a.depth
    ++ "_" ++ natDecStr epoch ++ ".pth"

/-- train.py lines 271-272: filename of the checkpoint saved at the end of
every epoch: save_folder + '/' + dataset + '_' + basenet + str(depth) +
'.pth' — it has no epoch component. -/
def epochEndCkptName (a : Args) : String :=
  a.save_folder ++ "/" ++ a.dataset ++ "_" ++ a.basenet ++ intDecStr a.depth
    ++ ".pth"

/-- Framework calls performed by the training loop, in program order. -/
inductive Event where
  | zeroGrad
  | forwardPass
  | lossComp (v : ℚ)
  | backwardPass (v : ℚ)
  | optStep
  | metricAcc (acc : ℚ) (lossVal : ℚ) (n : Nat)
  | schedStep (metric : ℚ)
  | saveCkpt (name : String)
deriving DecidableEq

/-- Modelled from the spec: "scalar running-average metrics (loss, top-1
accuracy) held in memory for the duration of a training run" — the
AverageMeter utility (utils/AverageMeter.py is not under src/) keeps the
last value, a weighted sum, a weight count and their quotient; update with
value v and weight n performs sum += v*n, count += n, avg = sum/count. -/
structure AverageMeter where
  val : ℚ
  sum : ℚ
  count : ℚ
  avg : ℚ
deriving DecidableEq

/-- A fresh meter: all fields zero. -/
def AverageMeter.reset : AverageMeter :=
  { val := 0, sum := 0, count := 0, avg := 0 }

/-- One meter update with value v and weight n. -/
def AverageMeter.update (m : AverageMeter) (v : ℚ) (n : Nat) : AverageMeter :=
  let sum := m.sum + v * n
  let count := m.count + n
  { val := v, sum := sum, count := count, avg := sum / count }

/-- One training batch, with the tensors abstracted: per sample the model's
output scores and the true label, and the scalar value of
criterion(outputs, targets). -/
structure Batch where
  samples : List (List ℚ × Nat)
  lossVal : ℚ
deriving DecidableEq

/-- Index of the first highest score in a score list (the class torch.max
returns for the top-1 prediction). -/
def argmaxFrom : List ℚ → Nat → ℚ → Nat → Nat
  | [], _, _, bestIdx => bestIdx
  | x :: xs, i, best, bestIdx =>
    if x > best then argmaxFrom xs (i + 1) x i
    else argmaxFrom xs (i + 1) best bestIdx

/-- Top-1 predicted class of one sample's scores. -/
def predictedTop1 : List ℚ → Nat
  | [] => 0
  | x :: xs => argmaxFrom xs 1 x 0

/-- Number of samples of a batch whose top-1 prediction equals the label. -/
def correctCount (samples : List (List ℚ × Nat)) : Nat :=
  samples.countP (fun s => predictedTop1 s.1 == s.2)

/-- Modelled from the spec: "Top-1 accuracy: fraction of samples whose
highest-scoring predicted class matches the true label" — the accuracy
utility (utils/accuracy.py is not under src/) applied to one batch with
topk=(1,1). -/
def top1frac (samples : List (List ℚ × Nat)) : ℚ :=
  (correctCount samples : ℚ) / (samples.length : ℚ)

/-- In-memory state threaded through the batch loop of train.py:
the two meters created on lines 167-168 and the iteration counter of
line 202. -/
structure LoopState where
  top1 : AverageMeter
  losses : AverageMeter
  iteration : Nat
deriving DecidableEq

/-- Loop state at entry of the epoch loop. -/
def initLoopState : LoopState :=
  { top1 := AverageMeter.reset, losses := AverageMeter.reset, iteration := 0 }

/-- train.py lines 223-245, one pass of the batch loop: increment the
iteration counter; zero the gradients; forward pass; compute the criterion
loss; divide it by accumulation_steps; backward on the divided loss;
optimizer step; then record accuracy and the divided loss into the meters,
each weighted by images.size(0).  Logging and tensorboard writes are
omitted. -/
def runBatch (a : Args) (s : LoopState) (b : Batch) : LoopState × List Event :=
  let n := b.samples.length
  let scaled := b.lossVal / (a.accumulation_steps : ℚ)
  let acc1 := top1frac b.samples
  ({ top1 := s.top1.update acc1 n,
     losses := s.losses.update scaled n,
     iteration := s.iteration + 1 },
   [Event.zeroGrad, Event.forwardPass, Event.lossComp b.lossVal,
    Event.backwardPass scaled, Event.optStep, Event.metricAcc acc1 scaled n])

/-- The batch loop of one epoch (train.py lines 223-255): batches are
processed in order, threading the meter state and concatenating the
traces. -/
def runBatches (a : Args) (s : LoopState) : List Batch → LoopState × List Event
  | [] => (s, [])
  | b :: rest =>
    ((runBatches a (runBatch a s b).1 rest).1,
     (runBatch a s b).2 ++ (runBatches a (runBatch a s b).1 rest).2)

/-- train.py lines 265-272: the checkpoint writes at the end of epoch ep —
the interval checkpoint when `epoch != 0 and epoch % 5 == 0`, then the
unconditional end-of-epoch checkpoint. -/
def epochSaves (a : Args) (ep : Nat) : List Event :=
  (if ep ≠ 0 ∧ ep % 5 = 0 then [Event.saveCkpt (intervalCkptName a ep)] else [])
    ++ [Event.saveCkpt (epochEndCkptName a)]

/-- One epoch of train.py (lines 219-272): the batch loop, then
`scheduler.step(losses.avg)` on line 257 with the loss meter's average at
that point, then the checkpoint writes. -/
def runEpoch (a : Args) (s : LoopState) (ep : Nat) (bs : List Batch) :
    LoopState × List Event :=
  ((runBatches a s bs).1,
   (runBatches a s bs).2
     ++ Event.schedStep ((runBatches a s bs).1).losses.avg :: epochSaves a ep)

/-- The epoch loop from epoch e for k more epochs, over per-epoch batch
lists (the dataloader reshuffles each epoch, so the batches are a function
of the epoch index). -/
def runEpochsFrom (a : Args) (batches : Nat → List Batch) :
    Nat → Nat → LoopState → LoopState × List Event
  | _, 0, s => (s, [])
  | e, k + 1, s =>
    ((runEpochsFrom a batches (e + 1) k (runEpoch a s e (batches e)).1).1,
     (runEpoch a s e (batches e)).2
       ++ (runEpochsFrom a batches (e + 1) k (runEpoch a s e (batches e)).1).2)

/-- train.py line 219: `for epoch in range(args.epochs)` over the epoch
body. -/
def runTraining (a : Args) (batches : Nat → List Batch) : LoopState × List Event :=
  runEpochsFrom a batches 0 a.epochs initLoopState

/-- train() of train.py as a result: the configuration checks in source
order (dataset, lines 140-160; model, lines 171-177) raise ValueError —
modelled as Except.error carrying the message — before the epoch loop
runs; on success the final meters and the full trace are returned. -/
def trainRun (cifarPath petsPath : String) (a : Args) (batches : Nat → List Batch) :
    Except String (LoopState × List Event) :=
  match datasetCheck cifarPath petsPath a with
  | Except.error e => Except.error e
  | Except.ok _ =>
    match modelCheck a with
    | Except.error e => Except.error e
    | Except.ok _ => Except.ok (runTraining a batches)

/-- Whether an event is a scheduler step. -/
def isSchedStepEv : Event → Bool
  | Event.schedStep _ => true
  | _ => false

/-- Whether an event is an optimizer step. -/
def isOptStepEv : Event → Bool
  | Event.optStep => true
  | _ => false

/-- The loss value a backward event propagates, if any. -/
def backwardVal : Event → Option ℚ
  | Event.backwardPass v => some v
  | _ => none

/-- Numeric value of a little-endian digit-character list (left inverse of
decChars, used to show decimal representations are injective). -/
def decVal : List Char → Nat
  | [] => 0
  | c :: cs => (c.toNat - 48) + 10 * decVal cs

/-- A concrete valid configuration (the script's defaults: pets / vgg /
depth 16). -/
def argsEx : Args :=
  { dataset := "pets", dataset_root := some "/data/pets", basenet := "vgg",
    depth := 16, save_folder := "checkpoints", resume := Option.none,
    accumulation_steps := 1, epochs := 200 }

/-- A configuration whose dataset_root does not match the pets path. -/
def argsBadRoot : Args :=
  { dataset := "pets", dataset_root := some "/wrong", basenet := "vgg",
    depth := 16, save_folder := "checkpoints", resume := Option.none,
    accumulation_steps := 1, epochs := 1 }

/-- A configuration resuming from a checkpoint whose extension is neither
.pth nor .pkl. -/
def argsResumeCkpt : Args :=
  { dataset := "pets", dataset_root := some "/data/pets", basenet := "vgg",
    depth := 16, save_folder := "checkpoints", resume := some "model.ckpt",
    accumulation_steps := 1, epochs := 1 }

/-- A concrete one-batch run: two samples, the first predicted correctly
(scores [1,0], label 0), the second not (scores [0,1], label 0). -/
def bsEx : List Batch :=
  [{ samples := [([(1 : ℚ), 0], 0), ([(0 : ℚ), 1], 0)], lossVal := 2 }]

/-! Helper lemmas: decimal representations are injective. -/

lemma digitChar_toNat_sub : ∀ d < 10, (Nat.digitChar d).toNat - 48 = d := by
  decide

lemma decVal_decChars : ∀ fuel n, n ≤ fuel → decVal (decChars fuel n) = n := by
  intro fuel
  induction fuel with
  | zero =>
    intro n hn
    interval_cases n
    rfl
  | succ f ih =>
    intro n hn
    by_cases h0 : n = 0
    · subst h0
      simp [decChars, decVal]
    · have hlt : n / 10 < n := Nat.div_lt_self (Nat.pos_of_ne_zero h0) (by norm_num)
      have hdiv : n / 10 ≤ f := by omega
      simp only [decChars, if_neg h0, decVal]
      rw [ih (n / 10) hdiv, digitChar_toNat_sub (n % 10) (Nat.mod_lt n (by norm_num))]
      omega

lemma natDecStr_inj (m n : Nat) (h : natDecStr m = natDecStr n) : m = n := by
  unfold natDecStr at h
  by_cases hm : m = 0 <;> by_cases hn : n = 0
  · omega
  · exfalso
    rw [if_pos hm, if_neg hn] at h
    have hd : (String.mk ['0']).data = (String.mk (decChars n n).reverse).data :=
      congrArg String.data h
    have hl : ['0'] = (decChars n n).reverse := hd
    have hc : decChars n n = ['0'] := by
      have := congrArg List.reverse hl
      simpa using this.symm
    have hv := decVal_decChars n n le_rfl
    rw [hc] at hv
    simp [decVal] at hv
    omega
  · exfalso
    rw [if_neg hm, if_pos hn] at h
    have hd : (String.mk (decChars m m).reverse).data = (String.mk ['0']).data :=
      congrArg String.data h
    have hl : (decChars m m).reverse = ['0'] := hd
    have hc : decChars m m = ['0'] := by
      have := congrArg List.reverse hl
      simpa using this
    have hv := decVal_decChars m m le_rfl
    rw [hc] at hv
    simp [decVal] at hv
    omega
  · rw [if_neg hm, if_neg hn] at h
    have hd : (decChars m m).reverse = (decChars n n).reverse :=
      congrArg String.data h
    have hc : decChars m m = decChars n n := List.reverse_injective hd
    have hvm := decVal_decChars m m le_rfl
    have hvn := decVal_decChars n n le_rfl
    rw [hc, hvn] at hvm
    exact hvm.symm

lemma natDecStr_data_inj (m n : Nat) (h : (natDecStr m).data = (natDecStr n).data) :
    m = n :=
  natDecStr_inj m n (String.ext h)

lemma intervalCkptName_assoc (a : Args) (ep : Nat) :
    intervalCkptName a ep =
      (a.save_folder ++ "/" ++ a.dataset ++ "_" ++ a.basenet ++ intDecStr a.depth)
        ++ ("_" ++ (natDecStr ep ++ ".pth")) := by
  unfold intervalCkptName
  rw [String.append_assoc, String.append_assoc]

lemma intervalCkptName_inj (a : Args) (e1 e2 : Nat)
    (h : intervalCkptName a e1 = intervalCkptName a e2) : e1 = e2 := by
  rw [intervalCkptName_assoc, intervalCkptName_assoc] at h
  have hd := congrArg String.data h
  simp only [String.data_append] at hd
  have h1 := List.append_cancel_left hd
  have h2 := List.append_cancel_left h1
  exact natDecStr_data_inj e1 e2 (List.append_cancel_right h2)

/-! Helper lemmas: structure of the batch-loop trace and of the meter
state. -/

lemma runBatches_events (a : Args) (bs : List Batch) : ∀ s : LoopState,
    (runBatches a s bs).2 = bs.flatMap (fun b =>
      [Event.zeroGrad, Event.forwardPass, Event.lossComp b.lossVal,
       Event.backwardPass (b.lossVal / (a.accumulation_steps : ℚ)), Event.optStep,
       Event.metricAcc (top1frac b.samples)
         (b.lossVal / (a.accumulation_steps : ℚ)) b.samples.length]) := by
  induction bs with
  | nil => intro s; rfl
  | cons b rest ih =>
    intro s
    simp [runBatches, runBatch, ih]

lemma runBatches_no_sched (a : Args) (bs : List Batch) : ∀ s : LoopState,
    ((runBatches a s bs).2).countP isSchedStepEv = 0 := by
  induction bs with
  | nil => intro s; rfl
  | cons b rest ih =>
    intro s
    simp [runBatches, runBatch, List.countP_append, List.countP_cons,
      isSchedStepEv, ih]

lemma epochSaves_no_sched (a : Args) (ep : Nat) :
    (epochSaves a ep).countP isSchedStepEv = 0 := by
  unfold epochSaves
  by_cases h : ep ≠ 0 ∧ ep % 5 = 0 <;>
    simp [h, List.countP_append, List.countP_cons, isSchedStepEv]

lemma runBatches_optStep_count (a : Args) (bs : List Batch) : ∀ s : LoopState,
    ((runBatches a s bs).2).countP isOptStepEv = bs.length := by
  induction bs with
  | nil => intro s; rfl
  | cons b rest ih =>
    intro s
    simp [runBatches, runBatch, List.countP_append, List.countP_cons,
      isOptStepEv, ih]

lemma runBatches_backward_vals (a : Args) (bs : List Batch) : ∀ s : LoopState,
    ((runBatches a s bs).2).filterMap backwardVal
      = bs.map (fun b => b.lossVal / (a.accumulation_steps : ℚ)) := by
  induction bs with
  | nil => intro s; rfl
  | cons b rest ih =>
    intro s
    simp [runBatches, runBatch, List.filterMap_append, List.filterMap_cons,
      backwardVal, ih]

lemma runBatches_top1_sum_count (a : Args) (bs : List Batch) : ∀ s : LoopState,
    ((runBatches a s bs).1).top1.sum
        = s.top1.sum
          + (bs.map (fun b => top1frac b.samples * (b.samples.length : ℚ))).sum ∧
    ((runBatches a s bs).1).top1.count
        = s.top1.count + (bs.map (fun b => (b.samples.length : ℚ))).sum := by
  induction bs with
  | nil => intro s; simp [runBatches]
  | cons b rest ih =>
    intro s
    obtain ⟨h1, h2⟩ := ih (runBatch a s b).1
    constructor
    · rw [show (runBatches a s (b :: rest)).1
            = (runBatches a (runBatch a s b).1 rest).1 from rfl, h1]
      simp [runBatch, AverageMeter.update]
      ring
    · rw [show (runBatches a s (b :: rest)).1
            = (runBatches a (runBatch a s b).1 rest).1 from rfl, h2]
      simp [runBatch, AverageMeter.update]
      ring

lemma runBatches_top1_avg_inv (a : Args) (bs : List Batch) : ∀ s : LoopState,
    s.top1.avg = s.top1.sum / s.top1.count →
    ((runBatches a s bs).1).top1.avg
      = ((runBatches a s bs).1).top1.sum / ((runBatches a s bs).1).top1.count := by
  induction bs with
  | nil => intro s h; exact h
  | cons b rest ih =>
    intro s _
    exact ih (runBatch a s b).1 (by simp [runBatch, AverageMeter.update])

/-! Claim theorems. -/

/-- Claim C1: if the chosen dataset's root path is missing or does not
match the required path for that dataset (CIFAR10 or pets), or the
configured depth is not 16, or the configured base model is not 'vgg',
then train() stops with a ValueError carrying a descriptive message and
no training iteration runs (the run result is an error, not a trace). -/
theorem config_errors_fatal (cifarPath petsPath : String) (a : Args)
    (batches : Nat → List Batch)
    (_hchoice : a.dataset = "CIFAR10" ∨ a.dataset = "pets")
    (hbad : (a.dataset = "CIFAR10" ∧ a.dataset_root ≠ some cifarPath)
          ∨ (a.dataset = "pets" ∧ a.dataset_root ≠ some petsPath)
          ∨ a.depth ≠ 16 ∨ a.basenet ≠ "vgg") :
    ∃ msg, trainRun cifarPath petsPath a batches = Except.error msg := by
  unfold trainRun
  rcases hbad with ⟨hd, hr⟩ | ⟨hd, hr⟩ | hdep | hbn
  · refine ⟨"Must specify dataset_root if specifying dataset CIFAR10.", ?_⟩
    simp [datasetCheck, hd, hr]
  · refine ⟨"Must specify dataset_root if specifying dataset PETS.", ?_⟩
    have hd' : ¬a.dataset = "CIFAR10" := by rw [hd]; decide
    simp [datasetCheck, hd, hd', hr]
  · cases hds : datasetCheck cifarPath petsPath a with
    | error e => exact ⟨e, by simp [hds]⟩
    | ok u =>
      by_cases hbn' : a.basenet = "vgg"
      · exact ⟨"Unsupported model depth!", by simp [hds, modelCheck, hbn', hdep]⟩
      · exact ⟨"Unsupported model type!", by simp [hds, modelCheck, hbn']⟩
  · cases hds : datasetCheck cifarPath petsPath a with
    | error e => exact ⟨e, by simp [hds]⟩
    | ok u => exact ⟨"Unsupported model type!", by simp [hds, modelCheck, hbn]⟩

/-- Witness for C1: a pets run whose dataset_root is not the pets path
errors out. -/
theorem config_errors_fatal_witness :
    ∃ msg, trainRun "/data/CIFAR10" "/data/pets" argsBadRoot (fun _ => [])
      = Except.error msg :=
  config_errors_fatal "/data/CIFAR10" "/data/pets" argsBadRoot (fun _ => [])
    (Or.inr rfl) (Or.inr (Or.inl ⟨rfl, by decide⟩))

/-- Claim C2 is contradicted by the code: for the resume file 'model.ckpt',
whose extension '.ckpt' is neither '.pth' nor '.pkl', the branch condition
`ext == '.pkl' or '.pth'` is truthy (the literal '.pth' is a nonempty
string), so the script proceeds to load weights from
save_folder/model.ckpt instead of rejecting the unsupported extension. -/
theorem resume_bad_ext_still_loaded :
    resumeAction argsResumeCkpt
        = ResumeAction.loadWeights "checkpoints/model.ckpt"
    ∧ splitextExt "model.ckpt" = ".ckpt" := by
  decide

/-- The rejection branch of train.py line 193-194 is unreachable: no
configuration makes resumeAction print the 'Sorry only .pth and .pkl
files supported.' message. -/
lemma resumeAction_never_rejects (a : Args) :
    resumeAction a ≠ ResumeAction.rejectExt := by
  unfold resumeAction
  cases a.resume with
  | none => simp
  | some r =>
    by_cases h : pyStrTruthy r
    · have hp : pyStrTruthy ".pth" = true := rfl
      simp [h, hp]
    · simp [h]

/-- Claim C3 is false as stated: at epochs 1 and 2 exactly one checkpoint
is written each, to the identical filename checkpoints/pets_vgg16.pth, so
the filename of a written checkpoint does not encode the epoch number at
which it was saved. -/
theorem ckpt_name_encodes_epoch_cex :
    epochSaves argsEx 1 = [Event.saveCkpt "checkpoints/pets_vgg16.pth"]
    ∧ epochSaves argsEx 2 = [Event.saveCkpt "checkpoints/pets_vgg16.pth"]
    ∧ (1 : Nat) ≠ 2 := by
  decide

/-- Claim C3 amended: interval checkpoints (written when the epoch is a
nonzero multiple of 5) have filenames encoding dataset, model name, depth
and epoch — distinct epochs give distinct interval filenames — while the
end-of-epoch checkpoint written every epoch encodes dataset, model name
and depth only: its filename is the same fixed path at every epoch. -/
theorem ckpt_filename_encoding_amended (a : Args) (e1 e2 : Nat) :
    (intervalCkptName a e1 = intervalCkptName a e2 → e1 = e2)
    ∧ (epochSaves a e1).getLast? = some (Event.saveCkpt (epochEndCkptName a)) := by
  refine ⟨intervalCkptName_inj a e1 e2, ?_⟩
  unfold epochSaves
  exact List.getLast?_concat _

/-- Witness for the amended C3 at a concrete configuration and epochs. -/
theorem ckpt_filename_encoding_amended_witness :
    (epochSaves argsEx 3).getLast?
      = some (Event.saveCkpt (epochEndCkptName argsEx)) :=
  (ckpt_filename_encoding_amended argsEx 3 4).2

/-- Claim C4: every epoch's save step ends with the unconditional
end-of-epoch checkpoint write, and the additional interval checkpoint is
part of the epoch's writes exactly when the epoch is a nonzero multiple
of 5; no epoch ends without a checkpoint write. -/
theorem epoch_checkpoint_writes (a : Args) (ep : Nat) :
    epochSaves a ep ≠ []
    ∧ (epochSaves a ep).getLast? = some (Event.saveCkpt (epochEndCkptName a))
    ∧ (epochSaves a ep
        = [Event.saveCkpt (intervalCkptName a ep),
           Event.saveCkpt (epochEndCkptName a)]
        ↔ ep ≠ 0 ∧ ep % 5 = 0) := by
  refine ⟨?_, ?_, ?_⟩
  · unfold epochSaves
    by_cases h : ep ≠ 0 ∧ ep % 5 = 0 <;> simp [h]
  · unfold epochSaves
    exact List.getLast?_concat _
  · unfold epochSaves
    by_cases h : ep ≠ 0 ∧ ep % 5 = 0 <;> simp [h]

/-- Witness for C4 at a concrete configuration and epoch. -/
theorem epoch_checkpoint_writes_witness :
    (epochSaves argsEx 5).getLast?
      = some (Event.saveCkpt (epochEndCkptName argsEx)) :=
  (epoch_checkpoint_writes argsEx 5).2.1

/-- Claim C5: in every epoch the scheduler step happens exactly once, it
comes after the whole batch loop of that epoch, and the metric it is
passed is the loss meter's running average at that point. -/
theorem sched_step_once_per_epoch (a : Args) (s : LoopState) (ep : Nat)
    (bs : List Batch) :
    (runEpoch a s ep bs).2
      = (runBatches a s bs).2
        ++ Event.schedStep ((runBatches a s bs).1).losses.avg :: epochSaves a ep
    ∧ ((runBatches a s bs).2).countP isSchedStepEv = 0
    ∧ ((runEpoch a s ep bs).2).countP isSchedStepEv = 1 := by
  refine ⟨rfl, runBatches_no_sched a bs s, ?_⟩
  show ((runBatches a s bs).2
      ++ Event.schedStep ((runBatches a s bs).1).losses.avg :: epochSaves a ep).countP
        isSchedStepEv = 1
  rw [List.countP_append, runBatches_no_sched a bs s, List.countP_cons,
    epochSaves_no_sched a ep]
  simp [isSchedStepEv]

/-- Claim C6: the trace of the batch loop is, batch for batch, exactly the
six framework calls zero-grad, forward, loss computation, backward,
optimizer step, metric accumulation, in this order, once each. -/
theorem batch_loop_step_sequence (a : Args) (s : LoopState) (bs : List Batch) :
    (runBatches a s bs).2 = bs.flatMap (fun b =>
      [Event.zeroGrad, Event.forwardPass, Event.lossComp b.lossVal,
       Event.backwardPass (b.lossVal / (a.accumulation_steps : ℚ)), Event.optStep,
       Event.metricAcc (top1frac b.samples)
         (b.lossVal / (a.accumulation_steps : ℚ)) b.samples.length]) :=
  runBatches_events a bs s

/-- Claim C7: the per-batch accuracy recorded is the fraction of the
batch's samples whose top-1 prediction matches the label, and after any
batch sequence the top1 meter's average is the batch-size-weighted running
average of these fractions, which equals the number of correct samples
over the number of samples seen. -/
theorem top1_meter_weighted_running_average (a : Args) (bs : List Batch)
    (h : ∀ b ∈ bs, b.samples ≠ []) :
    ((runBatches a initLoopState bs).1).top1.avg
        = (bs.map (fun b => top1frac b.samples * (b.samples.length : ℚ))).sum
          / (bs.map (fun b => (b.samples.length : ℚ))).sum
    ∧ ((runBatches a initLoopState bs).1).top1.avg
        = (bs.map (fun b => (correctCount b.samples : ℚ))).sum
          / (bs.map (fun b => (b.samples.length : ℚ))).sum := by
  have hsums := runBatches_top1_sum_count a bs initLoopState
  have havg := runBatches_top1_avg_inv a bs initLoopState
    (by simp [initLoopState, AverageMeter.reset])
  have h1 : ((runBatches a initLoopState bs).1).top1.avg
      = (bs.map (fun b => top1frac b.samples * (b.samples.length : ℚ))).sum
        / (bs.map (fun b => (b.samples.length : ℚ))).sum := by
    rw [havg, hsums.1, hsums.2]
    simp [initLoopState, AverageMeter.reset]
  refine ⟨h1, h1.trans ?_⟩
  have hmap : bs.map (fun b => top1frac b.samples * (b.samples.length : ℚ))
      = bs.map (fun b => (correctCount b.samples : ℚ)) := by
    apply List.map_congr_left
    intro b hb
    have hne : ((b.samples.length : ℚ)) ≠ 0 :=
      Nat.cast_ne_zero.mpr (fun hlen => h b hb (List.length_eq_zero.mp hlen))
    unfold top1frac
    exact div_mul_cancel₀ _ hne
  rw [hmap]

/-- Witness for C7: one two-sample batch with one correct prediction. -/
theorem top1_meter_weighted_running_average_witness :
    ((runBatches argsEx initLoopState bsEx).1).top1.avg
      = (bsEx.map (fun b => (correctCount b.samples : ℚ))).sum
        / (bsEx.map (fun b => (b.samples.length : ℚ))).sum :=
  (top1_meter_weighted_running_average argsEx bsEx (by decide)).2

/-- Claim C8: whatever the value of accumulation_steps, every batch
performs exactly one optimizer step (the step count equals the batch
count), and the only effect of accumulation_steps is that the value
backward is called on is the criterion loss divided by it. -/
theorem opt_step_every_batch (a : Args) (s : LoopState) (bs : List Batch) :
    ((runBatches a s bs).2).countP isOptStepEv = bs.length
    ∧ ((runBatches a s bs).2).filterMap backwardVal
        = bs.map (fun b => b.lossVal / (a.accumulation_steps : ℚ)) :=
  ⟨runBatches_optStep_count a bs s, runBatches_backward_vals a bs s⟩

/-- Claim C9: os.path.exists returns a bool, never None, so the condition
`os.path.exists(args.save_folder) is None` is False whether or not the
folder exists, and the mkdir branch is unreachable. -/
theorem mkdir_branch_never_taken :
    ∀ existsOnDisk : Bool, mkdirBranchTaken existsOnDisk = false :=
  fun _ => rfl

/-- Claim C10: the end-of-epoch checkpoint write targets the same fixed
filename at every epoch — the last save of epoch e1 and the last save of
epoch e2 are the same write, to
save_folder + '/' + dataset + '_' + basenet + str(depth) + '.pth'. -/
theorem epoch_end_ckpt_path_constant (a : Args) (e1 e2 : Nat) :
    (epochSaves a e1).getLast? = some (Event.saveCkpt (epochEndCkptName a))
    ∧ (epochSaves a e1).getLast? = (epochSaves a e2).getLast? := by
  have h : ∀ e : Nat, (epochSaves a e).getLast?
      = some (Event.saveCkpt (epochEndCkptName a)) := by
    intro e
    unfold epochSaves
    exact List.getLast?_concat _
  exact ⟨h e1, (h e1).trans (h e2).symm⟩
